import Mathlib

/-!
Shallow embedding of `Raya/tree_sitter_parser.py` (class `TreeSitterParser`).

The tree-sitter library itself is external: a parsed file is represented by an
abstract concrete-syntax-tree value (`TSNode`, carrying the node type string,
the start/end points and the children, exactly the data the Python code reads
from a tree-sitter node).  The file system is modelled as a partial map from
paths to contents (`none` = the file cannot be read, e.g. it was deleted).
Python dictionaries returned by the parser are modelled by the `ParseResult`
structure, where a field of type `Option _` set to `none` models a key that is
absent from the dictionary.  A Python statement that can raise is modelled in
the `Option`/`Except` monad; a `try/except` block is modelled by matching on
the monadic result, mirroring the source's handler.
-/

/-- A tree-sitter syntax node: `node.type`, `node.start_point = (srow, scol)`,
`node.end_point = (erow, ecol)`, `node.children`. -/
inductive TSNode : Type where
  | node (ntype : String) (srow scol erow ecol : Nat) (children : List TSNode)

def TSNode.ntype : TSNode → String
  | .node t _ _ _ _ _ => t

def TSNode.srow : TSNode → Nat
  | .node _ r _ _ _ _ => r

def TSNode.scol : TSNode → Nat
  | .node _ _ c _ _ _ => c

def TSNode.erow : TSNode → Nat
  | .node _ _ _ r _ _ => r

def TSNode.ecol : TSNode → Nat
  | .node _ _ _ _ c _ => c

def TSNode.children : TSNode → List TSNode
  | .node _ _ _ _ _ cs => cs

/-- The dictionary built by `_extract_python_function` / `_extract_js_function`.
`docstring`, `complexity` and `ftype` are `none` when the Python dict lacks the
corresponding key (`docstring`/`complexity` for JavaScript, `type` for Python). -/
structure FunctionRecord where
  name : String
  start_line : Nat
  end_line : Nat
  parameters : List String
  docstring : Option String
  complexity : Option Nat
  ftype : Option String
deriving Repr, DecidableEq

/-- The dictionary built by `_extract_python_class` / `_extract_js_class`;
`attributes` is `none` when the key is absent (JavaScript classes). -/
structure ClassRecord where
  name : String
  start_line : Nat
  end_line : Nat
  methods : List FunctionRecord
  attributes : Option (List String)
deriving Repr, DecidableEq

/-- The dictionary built by `_extract_python_import` / `_extract_js_import`;
`itype` models the `type` key, absent for JavaScript imports. -/
structure ImportRecord where
  itype : Option String
  statement : String
  line : Nat
deriving Repr, DecidableEq

/-- The dictionary built by `_extract_python_variable`. -/
structure VariableRecord where
  name : String
  line : Nat
  vtype : String
deriving Repr, DecidableEq

/-- A file descriptor as produced by the git handler: keys `path`, `full_path`,
`language`, `size`. -/
structure FileInfo where
  path : String
  full_path : String
  language : Option String
  size : Nat
deriving Repr, DecidableEq

/-- The result dictionary of `parse_file` / `_parse_python` / `_fallback_parse`
and friends.  A field of `Option` type equal to `none` models an absent key
(e.g. `_parse_java` builds no `variables` key).  `language`, `functions` and
`errors` are present in every result dictionary the source constructs. -/
structure ParseResult where
  language : String
  functions : List FunctionRecord
  classes : Option (List ClassRecord)
  imports : Option (List ImportRecord)
  vars : Option (List VariableRecord)
  exports : Option (List ImportRecord)
  includes : Option (List ImportRecord)
  structs : Option (List ClassRecord)
  lines_of_code : Option Nat
  total_lines : Option Nat
  errors : List String
  file_info : Option FileInfo
deriving Repr, DecidableEq

/-- Python's `content.split('\n')` (run over the character list so that it
computes by kernel reduction). -/
def splitLinesAux : List Char → List Char → List String
  | [], acc => [String.mk acc.reverse]
  | c :: rest, acc =>
      if c = '\n' then String.mk acc.reverse :: splitLinesAux rest []
      else splitLinesAux rest (c :: acc)

/-- `content.split('\n')`. -/
def splitLines (s : String) : List String := splitLinesAux s.data []

/-- Python's slice `s[a:b]` (by code point, clamped, never raising). -/
def pySlice (s : String) (a b : Nat) : String :=
  String.mk ((s.data.drop a).take (b - a))

/-- Python's `lines[i]`: raises `IndexError` out of range, modelled as `none`
(the surrounding `try/except` of the source turns that into a `None` result). -/
def pyLine (lines : List String) (i : Nat) : Option String := lines[i]?

/-- Truthiness of `line.strip()`: true iff the line has a non-whitespace
character (stripping leading/trailing whitespace leaves something). -/
def pyNonBlank (line : String) : Bool :=
  line.data.any (fun c => !c.isWhitespace)

/-- Truthiness test `if not language:` on an optional string: `None` and the
empty string are falsy. -/
def pyFalsy : Option String → Bool
  | none => true
  | some s => s = ""

/-- The `for child in node.children: if child.type == t: ...; break` pattern:
first child of the given type, if any. -/
def firstChildOfType (cs : List TSNode) (t : String) : Option TSNode :=
  cs.find? (fun c => c.ntype = t)

/-- The extension→language table of `_detect_language`. -/
def extension_map : List (String × String) :=
  [(".py", "python"), (".js", "javascript"), (".jsx", "javascript"),
   (".ts", "typescript"), (".tsx", "typescript"), (".java", "java"),
   (".cpp", "cpp"), (".cxx", "cpp"), (".cc", "cpp"), (".c", "c"),
   (".go", "go"), (".rs", "rust")]

/-- `os.path.splitext(file_path)[1]`: the suffix of the final path component
starting at its last dot, except that a component whose every character before
that dot is a dot has no extension (`".bashrc"` has none). -/
def pySplitextExt (path : String) : String :=
  let revBase := (path.data.reverse.takeWhile (fun c => c ≠ '/'))
  if revBase.any (fun c => c = '.') then
    let revExt := revBase.takeWhile (fun c => c ≠ '.')
    let stem := revBase.drop (revExt.length + 1)
    if stem.all (fun c => c = '.') then ""
    else String.mk ('.' :: revExt.reverse)
  else ""

/-- `_detect_language`: lowercased extension looked up in `extension_map`. -/
def detect_language (path : String) : Option String :=
  let ext := String.mk ((pySplitextExt path).data.map Char.toLower)
  (extension_map.find? (fun kv => kv.1 = ext)).map (fun kv => kv.2)

/-- The node kinds counted by `_calculate_complexity`. -/
def branchKinds : List String :=
  ["if_statement", "while_statement", "for_statement", "except_clause"]

mutual
/-- Number of nodes of a branching kind in the subtree rooted at `n`,
including `n` itself — the amount `traverse_for_complexity(node)` adds. -/
def branchCount : TSNode → Nat
  | .node t _ _ _ _ cs => (if t ∈ branchKinds then 1 else 0) + branchCountList cs
/-- Same count summed over a list of subtrees. -/
def branchCountList : List TSNode → Nat
  | [] => 0
  | c :: cs => branchCount c + branchCountList cs
end

/-- `_calculate_complexity`: base 1, plus one per branching node found by the
full traversal started at the node itself. -/
def calculate_complexity (n : TSNode) : Nat := 1 + branchCount n

/-- Name lookup shared by `_extract_python_function` and
`_extract_python_class`: first `identifier` child, then
`lines[start_row][start_col:end_col]`; `None` if there is no identifier child,
and an out-of-range line access raises into the surrounding handler. -/
def pyNodeName (lines : List String) (cs : List TSNode) : Option String := do
  let nameNode ← firstChildOfType cs "identifier"
  let ln ← pyLine lines nameNode.srow
  pure (pySlice ln nameNode.scol nameNode.ecol)

/-- Parameter extraction of `_extract_python_function`: the direct `identifier`
children of the first `parameters` child, each sliced from its source line. -/
def pyParams (lines : List String) (cs : List TSNode) : Option (List String) :=
  match firstChildOfType cs "parameters" with
  | none => some []
  | some pn =>
      (pn.children.filter (fun c => c.ntype = "identifier")).mapM
        (fun c => do
          let ln ← pyLine lines c.srow
          pure (pySlice ln c.scol c.ecol))

/-- Docstring extraction of `_extract_python_function`.  The source sets
`first_stmt = body_node.children[1] if len(body_node.children) > 1 else None`
— i.e. it inspects the second child of the body block — and takes the string
literal's source span when that child is a bare string expression statement. -/
def pyDocstring (lines : List String) (cs : List TSNode) : Option (Option String) :=
  match firstChildOfType cs "block" with
  | none => some none
  | some bn =>
      if bn.children.isEmpty then some none
      else
        match bn.children[1]? with
        | none => some none
        | some st =>
            if st.ntype = "expression_statement" then
              match st.children.head? with
              | none => some none
              | some ec =>
                  if ec.ntype = "string" then do
                    let ln ← pyLine lines ec.srow
                    pure (some (pySlice ln ec.scol ec.ecol))
                  else some none
            else some none

/-- `_extract_python_function`: name, parameters, docstring (in source order,
any raising step yielding `None` via the enclosing handler), then the record
with 1-based lines and the computed complexity. -/
def extract_python_function (lines : List String) (n : TSNode) : Option FunctionRecord := do
  let nm ← pyNodeName lines n.children
  let ps ← pyParams lines n.children
  let ds ← pyDocstring lines n.children
  pure { name := nm, start_line := n.srow + 1, end_line := n.erow + 1,
         parameters := ps, docstring := ds,
         complexity := some (calculate_complexity n), ftype := none }

/-- `_extract_python_class`: name from the identifier child, methods from the
direct `function_definition` children of the first `block` child (failed
method extractions are skipped), empty attribute list. -/
def extract_python_class (lines : List String) (n : TSNode) : Option ClassRecord := do
  let nm ← pyNodeName lines n.children
  let methods :=
    match firstChildOfType n.children "block" with
    | none => []
    | some bn =>
        bn.children.filterMap (fun c =>
          if c.ntype = "function_definition" then extract_python_function lines c
          else none)
  pure { name := nm, start_line := n.srow + 1, end_line := n.erow + 1,
         methods := methods, attributes := some [] }

/-- `_extract_python_import`: the literal text from the node's start column to
its end column on its start line, plus the node type and 1-based line. -/
def extract_python_import (lines : List String) (n : TSNode) : Option ImportRecord := do
  let ln ← pyLine lines n.srow
  pure { itype := some n.ntype, statement := pySlice ln n.scol n.ecol,
         line := n.srow + 1 }

/-- `_extract_python_variable`: a record only when the first child is a bare
identifier (the assignment's left-hand side). -/
def extract_python_variable (lines : List String) (n : TSNode) : Option VariableRecord :=
  match n.children.head? with
  | none => none
  | some left =>
      if left.ntype = "identifier" then do
        let ln ← pyLine lines left.srow
        pure { name := pySlice ln left.scol left.ecol, line := n.srow + 1,
               vtype := "variable" }
      else none

mutual
/-- The generic pre-order walk of `traverse_node`: contribute the records the
per-node dispatch produces at this node, then recurse into every child. -/
def collectNodes {α : Type} (pick : TSNode → List α) : TSNode → List α
  | .node t sr sc er ec cs =>
      pick (.node t sr sc er ec cs) ++ collectNodesList pick cs
/-- The walk over a child list, left to right. -/
def collectNodesList {α : Type} (pick : TSNode → List α) : List TSNode → List α
  | [] => []
  | c :: cs => collectNodes pick c ++ collectNodesList pick cs
end

/-- Dispatch of `_parse_python` on `function_definition` nodes. -/
def pickPyFunction (lines : List String) (n : TSNode) : List FunctionRecord :=
  if n.ntype = "function_definition" then (extract_python_function lines n).toList
  else []

/-- Dispatch of `_parse_python` on `class_definition` nodes. -/
def pickPyClass (lines : List String) (n : TSNode) : List ClassRecord :=
  if n.ntype = "class_definition" then (extract_python_class lines n).toList
  else []

/-- Dispatch of `_parse_python` on import statements. -/
def pickPyImport (lines : List String) (n : TSNode) : List ImportRecord :=
  if n.ntype = "import_statement" ∨ n.ntype = "import_from_statement" then
    (extract_python_import lines n).toList
  else []

/-- Dispatch of `_parse_python` on `assignment` nodes. -/
def pickPyVariable (lines : List String) (n : TSNode) : List VariableRecord :=
  if n.ntype = "assignment" then (extract_python_variable lines n).toList
  else []

/-- `_parse_python`: one pre-order traversal filling the four record lists
(the `elif` chain of the source dispatches each node to at most one list;
node types are distinct strings, so the four independent collections below
produce exactly the lists the single mutable traversal appends to). -/
def parse_python (tree : TSNode) (content : String) : ParseResult :=
  let lines := splitLines content
  { language := "python",
    functions := collectNodes (pickPyFunction lines) tree,
    classes := some (collectNodes (pickPyClass lines) tree),
    imports := some (collectNodes (pickPyImport lines) tree),
    vars := some (collectNodes (pickPyVariable lines) tree),
    exports := none, includes := none, structs := none,
    lines_of_code := none, total_lines := none,
    errors := [], file_info := none }

/-- `_extract_js_function`: name from the first `identifier` child, defaulting
to `"anonymous"`; no parameters, no docstring/complexity keys; the node type is
stored under the `type` key. -/
def extract_js_function (lines : List String) (n : TSNode) : Option FunctionRecord := do
  let nm ←
    match firstChildOfType n.children "identifier" with
    | none => pure "anonymous"
    | some idn => do
        let ln ← pyLine lines idn.srow
        pure (pySlice ln idn.scol idn.ecol)
  pure { name := nm, start_line := n.srow + 1, end_line := n.erow + 1,
         parameters := [], docstring := none, complexity := none,
         ftype := some n.ntype }

/-- `_extract_js_class`: name defaulting to `"anonymous"`, empty method list,
no attributes key. -/
def extract_js_class (lines : List String) (n : TSNode) : Option ClassRecord := do
  let nm ←
    match firstChildOfType n.children "identifier" with
    | none => pure "anonymous"
    | some idn => do
        let ln ← pyLine lines idn.srow
        pure (pySlice ln idn.scol idn.ecol)
  pure { name := nm, start_line := n.srow + 1, end_line := n.erow + 1,
         methods := [], attributes := none }

/-- `_extract_js_import`: statement text and line, with no `type` key. -/
def extract_js_import (lines : List String) (n : TSNode) : Option ImportRecord := do
  let ln ← pyLine lines n.srow
  pure { itype := none, statement := pySlice ln n.scol n.ecol, line := n.srow + 1 }

/-- Dispatch of `_parse_javascript` on the function-like node kinds. -/
def pickJsFunction (lines : List String) (n : TSNode) : List FunctionRecord :=
  if n.ntype = "function_declaration" ∨ n.ntype = "function_expression"
      ∨ n.ntype = "arrow_function" then
    (extract_js_function lines n).toList
  else []

/-- Dispatch of `_parse_javascript` on `class_declaration` nodes. -/
def pickJsClass (lines : List String) (n : TSNode) : List ClassRecord :=
  if n.ntype = "class_declaration" then (extract_js_class lines n).toList
  else []

/-- Dispatch of `_parse_javascript` on import-like nodes. -/
def pickJsImport (lines : List String) (n : TSNode) : List ImportRecord :=
  if n.ntype = "import_statement" ∨ n.ntype = "import_clause" then
    (extract_js_import lines n).toList
  else []

/-- `_parse_javascript`: used for both `javascript` and `typescript`, and its
result dictionary always carries `language: 'javascript'`. -/
def parse_javascript (tree : TSNode) (content : String) : ParseResult :=
  let lines := splitLines content
  { language := "javascript",
    functions := collectNodes (pickJsFunction lines) tree,
    classes := some (collectNodes (pickJsClass lines) tree),
    imports := some (collectNodes (pickJsImport lines) tree),
    exports := some [], vars := some [],
    includes := none, structs := none,
    lines_of_code := none, total_lines := none,
    errors := [], file_info := none }

/-- `_parse_java`: a constant dictionary with no `variables` key. -/
def parse_java (_tree : TSNode) (_content : String) : ParseResult :=
  { language := "java", functions := [], classes := some [], imports := some [],
    vars := none, exports := none, includes := none, structs := none,
    lines_of_code := none, total_lines := none, errors := [], file_info := none }

/-- `_parse_cpp`: used for both `cpp` and `c`, always labelled `cpp`; it has an
`includes` key but no `imports` and no `variables` key. -/
def parse_cpp (_tree : TSNode) (_content : String) : ParseResult :=
  { language := "cpp", functions := [], classes := some [], includes := some [],
    imports := none, vars := none, exports := none, structs := none,
    lines_of_code := none, total_lines := none, errors := [], file_info := none }

/-- `_parse_go`: it has a `structs` key but no `classes` and no `variables`. -/
def parse_go (_tree : TSNode) (_content : String) : ParseResult :=
  { language := "go", functions := [], structs := some [], imports := some [],
    classes := none, vars := none, exports := none, includes := none,
    lines_of_code := none, total_lines := none, errors := [], file_info := none }

/-- `_parse_rust`: same shape as `_parse_go`. -/
def parse_rust (_tree : TSNode) (_content : String) : ParseResult :=
  { language := "rust", functions := [], structs := some [], imports := some [],
    classes := none, vars := none, exports := none, includes := none,
    lines_of_code := none, total_lines := none, errors := [], file_info := none }

/-- `_fallback_parse`: re-read the file; on success report line counts and a
degradation diagnostic, on a read failure (inner `except`) report only an
error diagnostic.  (The exception text interpolated into the second diagnostic
is abstracted to a fixed read-failure message.) -/
def fallback_parse (fs : String → Option String) (path : String) : ParseResult :=
  match fs path with
  | some content =>
      let lines := splitLines content
      { language := (detect_language path).getD "unknown",
        functions := [], classes := some [], imports := some [],
        lines_of_code := some (lines.filter (fun l => pyNonBlank l)).length,
        total_lines := some lines.length,
        errors := ["Fallback parsing used - limited functionality"],
        vars := none, exports := none, includes := none, structs := none,
        file_info := none }
  | none =>
      { language := "unknown", functions := [], classes := some [],
        imports := some [],
        errors := ["Parsing failed: could not read file"],
        vars := none, exports := none, includes := none, structs := none,
        lines_of_code := none, total_lines := none, file_info := none }

/-- The state `TreeSitterParser` carries into `parse_file`: which languages
obtained a parser in `_setup_languages` (`self.parsers`' key set — best-effort,
so an arbitrary list), and the external tree-sitter parse step itself,
abstracted as a total function from language and content to a syntax tree. -/
structure ParserEnv where
  parsers : List String
  parseFn : String → String → TSNode

/-- The language resolution at the top of `parse_file`:
`if not language: language = self._detect_language(file_path)`. -/
def resolvedLang (language : Option String) (path : String) : Option String :=
  if pyFalsy language then detect_language path else language

/-- The body of `parse_file`'s `try` block.  The only step of the body that can
raise at this level of abstraction is the file read (`open`/`read`), modelled
by `fs path = none`; the per-node extraction helpers catch their own
exceptions, and the tree-sitter parse is modelled as total. -/
def parse_file_body (env : ParserEnv) (fs : String → Option String)
    (path : String) (language : Option String) : Except String ParseResult :=
  let lang := resolvedLang language path
  if pyFalsy lang ∨ ¬ env.parsers.contains (lang.getD "") then
    .ok (fallback_parse fs path)
  else
    match fs path with
    | none => .error "file read failed"
    | some content =>
        let l := lang.getD ""
        let tree := env.parseFn l content
        if l = "python" then .ok (parse_python tree content)
        else if l = "javascript" ∨ l = "typescript" then
          .ok (parse_javascript tree content)
        else if l = "java" then .ok (parse_java tree content)
        else if l = "cpp" ∨ l = "c" then .ok (parse_cpp tree content)
        else if l = "go" then .ok (parse_go tree content)
        else if l = "rust" then .ok (parse_rust tree content)
        else .ok (fallback_parse fs path)

/-- `parse_file` with its top-level `try/except` made explicit: the handler
turns any escaping exception into `_fallback_parse`.  A `.error` value here
would be an exception escaping to the caller; the handler leaves none. -/
def parse_file_exc (env : ParserEnv) (fs : String → Option String)
    (path : String) (language : Option String) : Except String ParseResult :=
  match parse_file_body env fs path language with
  | .ok r => .ok r
  | .error _ => .ok (fallback_parse fs path)

/-- `parse_file` as the caller sees it (the spec's `extractOne`). -/
def parse_file (env : ParserEnv) (fs : String → Option String)
    (path : String) (language : Option String) : ParseResult :=
  match parse_file_exc env fs path language with
  | .ok r => r
  | .error _ => fallback_parse fs path

/-- `parsed_result['file_info'] = file_info` before storing a batch entry. -/
def withFileInfo (r : ParseResult) (fi : FileInfo) : ParseResult :=
  { r with file_info := some fi }

/-- The batch entry stored for one descriptor: its relative path, mapped to
its own `parse_file` result carrying the descriptor. -/
def batchEntry (env : ParserEnv) (fs : String → Option String) (fi : FileInfo) :
    String × ParseResult :=
  (fi.path, withFileInfo (parse_file env fs fi.full_path fi.language) fi)

/-- Python-dict insertion: an existing key keeps its position and gets the new
value, a new key is appended. -/
def dictInsert (m : List (String × ParseResult)) (k : String) (v : ParseResult) :
    List (String × ParseResult) :=
  if m.any (fun p => p.1 = k) then
    m.map (fun p => if p.1 = k then (k, v) else p)
  else m ++ [(k, v)]

/-- `batch_parse_files` (the spec's `extractBatch`): one pass over the file
list, keying `results` by `file_info['path']`.  The `try/except` around the
loop body is modelled away because `parse_file` is total (its own handler
already catches everything) and the `file_info` assignment cannot raise, so
the `except` branch building an error-only entry is unreachable. -/
def batch_parse_files (env : ParserEnv) (fs : String → Option String)
    (file_list : List FileInfo) : List (String × ParseResult) :=
  file_list.foldl
    (fun results fi =>
      dictInsert results fi.path
        (withFileInfo (parse_file env fs fi.full_path fi.language) fi))
    []

mutual
/-- Well-formedness of a tree-sitter tree against a file of `total` lines:
every node's start row is at most its end row, and rows lie inside the file —
guarantees the tree-sitter library provides for a tree parsed from that file. -/
def wfNode (total : Nat) : TSNode → Bool
  | .node _ srow _ erow _ cs =>
      decide (srow ≤ erow) && decide (erow < total) && wfList total cs
/-- `wfNode` over a list of subtrees. -/
def wfList (total : Nat) : List TSNode → Bool
  | [] => true
  | c :: cs => wfNode total c && wfList total cs
end

/-- The eight dispatch languages of `parse_file` (the languages with a
registered rule set, counting the shared javascript and cpp rule sets). -/
def ruleSetLanguages : List String :=
  ["python", "javascript", "typescript", "java", "cpp", "c", "go", "rust"]

/-- The `language` field `parse_file` stores for each rule-set language:
`typescript` is handled by the javascript rule set (labelled `javascript`) and
`c` by the cpp rule set (labelled `cpp`); every other rule-set language is
labelled by itself. -/
def langField (l : String) : String :=
  if l = "typescript" then "javascript" else if l = "c" then "cpp" else l

/-- How `extractOne` restricted to a rule-set language should shape its result
dictionary, read off per language from the source's result constructors: only
python and javascript/typescript carry all four component sequences; java has
no `variables` key; cpp/c have `includes` but no `imports`/`variables`; go and
rust have `structs` but no `classes`/`variables`. -/
def componentShape (l : String) (r : ParseResult) : Prop :=
  if l = "python" ∨ l = "javascript" ∨ l = "typescript" then
    r.classes ≠ none ∧ r.imports ≠ none ∧ r.vars ≠ none
  else if l = "java" then
    r.classes = some [] ∧ r.imports = some [] ∧ r.vars = none
  else if l = "cpp" ∨ l = "c" then
    r.classes = some [] ∧ r.includes = some [] ∧ r.imports = none ∧ r.vars = none
  else
    r.structs = some [] ∧ r.imports = some [] ∧ r.classes = none ∧ r.vars = none

/-- A minimal syntax tree (an empty module), used as the output of the
abstract tree-sitter parse in concrete test environments. -/
def trivialTree : TSNode := .node "module" 0 0 0 0 []

/-- A parser environment in which all eight languages got a parser. -/
def envA : ParserEnv :=
  { parsers := ruleSetLanguages, parseFn := fun _ _ => trivialTree }

/-- A file system on which every path reads as the same one-line file. -/
def fsAll : String → Option String := fun _ => some "x = 1"

/-- Two descriptors sharing the relative path `a.py`. -/
def dupA : FileInfo :=
  { path := "a.py", full_path := "/r/a.py", language := some "python", size := 5 }

/-- Second descriptor with the same relative path as `dupA`. -/
def dupB : FileInfo :=
  { path := "a.py", full_path := "/r/b.py", language := some "python", size := 5 }

/-- A batch whose second file cannot be read (deleted mid-run). -/
def batchL : List FileInfo :=
  [{ path := "a.py", full_path := "/r/a.py", language := some "python", size := 5 },
   { path := "gone.txt", full_path := "/r/gone.txt", language := none, size := 0 }]

/-- File system for `batchL`: the first file is readable, the second is gone. -/
def fsB : String → Option String :=
  fun p => if p = "/r/a.py" then some "x = 1" else none

/-- A descriptor whose declared language (javascript) contradicts what the
detector derives from its path (python). -/
def fiMix : FileInfo :=
  { path := "a.py", full_path := "/r/a.py", language := some "javascript", size := 5 }

/-- A descriptor whose declared language (python) contradicts the detector's
answer for its path (c). -/
def fiDesc : FileInfo :=
  { path := "w.c", full_path := "/r/w.c", language := some "python", size := 5 }

/-- `def f():` with a body containing one `if` and, nested below it, one
`for`: the complexity scenario of the specification. -/
def exFnBranchy : TSNode :=
  .node "function_definition" 0 0 2 10
    [.node "identifier" 0 4 0 5 [],
     .node "parameters" 0 5 0 7 [],
     .node "block" 1 4 2 10
       [.node "if_statement" 1 4 2 10
         [.node "for_statement" 2 8 2 10 []]]]

/-- A function whose body is a single `pass`: no branching at all. -/
def exFnStraight : TSNode :=
  .node "function_definition" 0 0 1 8
    [.node "identifier" 0 4 0 5 [],
     .node "parameters" 0 5 0 7 [],
     .node "block" 1 4 1 8 [.node "pass_statement" 1 4 1 8 []]]

/-- Source text of a function whose entire body is one bare string literal. -/
def docContent : String := "def f():\n    \"doc\""

/-- The syntax tree of `docContent`: the body block's first (and only)
statement is a bare string-literal expression statement. -/
def docFnNode : TSNode :=
  .node "function_definition" 0 0 1 9
    [.node "identifier" 0 4 0 5 [],
     .node "parameters" 0 5 0 7 [],
     .node "block" 1 4 1 9
       [.node "expression_statement" 1 4 1 9
         [.node "string" 1 4 1 9 []]]]

/-- A 10-line file with exactly 3 blank lines (the fallback scenario). -/
def content10 : String := "l1\nl2\n\nl3\nl4\n\nl5\nl6\n\nl7"

/-- File system carrying `content10` under a path with an unrecognized
extension. -/
def fs10 : String → Option String :=
  fun p => if p = "notes.txt" then some content10 else none

/-- Source text of a class with a single method. -/
def pyClassContent : String := "class C:\n    def m(self):\n        pass"

/-- The method node of `pyClassContent`. -/
def pyMethodNode : TSNode :=
  .node "function_definition" 1 4 2 12
    [.node "identifier" 1 8 1 9 [],
     .node "parameters" 1 9 1 15 [.node "identifier" 1 10 1 14 []],
     .node "block" 2 8 2 12 [.node "pass_statement" 2 8 2 12 []]]

/-- The module tree of `pyClassContent`: one class whose body block holds one
`function_definition`. -/
def pyModuleTree : TSNode :=
  .node "module" 0 0 2 12
    [.node "class_definition" 0 0 2 12
      [.node "identifier" 0 6 0 7 [],
       .node "block" 1 4 2 12 [pyMethodNode]]]

/-- The function record extracted from `pyMethodNode`. -/
def pyMethodRec : FunctionRecord :=
  { name := "m", start_line := 2, end_line := 3, parameters := ["self"],
    docstring := none, complexity := some 1, ftype := none }

/-- The class record extracted from the class node of `pyModuleTree`. -/
def pyClassRec : ClassRecord :=
  { name := "C", start_line := 1, end_line := 3, methods := [pyMethodRec],
    attributes := some [] }

/-- C1: for every parser environment, file system, path and optional declared
language — covering empty files, unreadable/garbage files, unrecognized
languages and languages with no registered parser — `parse_file` (the spec's
`extractOne`) never lets an exception escape: its explicit `try/except` form
always yields `Except.ok` with a ParseResult, and that result is what the
caller receives. -/
theorem extractOne_never_raises (env : ParserEnv) (fs : String → Option String)
    (path : String) (language : Option String) :
    ∃ r : ParseResult, parse_file_exc env fs path language = Except.ok r ∧
      parse_file env fs path language = r := by
  cases h : parse_file_body env fs path language with
  | ok r => exact ⟨r, by simp [parse_file_exc, h], by simp [parse_file, parse_file_exc, h]⟩
  | error e =>
      exact ⟨fallback_parse fs path, by simp [parse_file_exc, h],
             by simp [parse_file, parse_file_exc, h]⟩

/-- C5: for every function node (its own kind is `function_definition`, never
a branching kind), the computed complexity is exactly 1 plus the number of
descendant nodes, at any depth, whose kind is a conditional, while-loop,
for-loop or exception-handler clause. -/
theorem complexity_counts_descendant_branches (n : TSNode)
    (h : n.ntype = "function_definition") :
    calculate_complexity n = 1 + branchCountList n.children := by
  cases n with
  | node t sr sc er ec cs =>
      simp only [TSNode.ntype] at h
      subst h
      simp [calculate_complexity, branchCount, TSNode.children, branchKinds]

/-- Witness for C5 at the specification's two scenarios: a function with one
`if` and one nested `for` has complexity 3 = 1 + 2 counted branch descendants,
and a function with no branching has complexity 1. -/
theorem complexity_counts_descendant_branches_witness :
    exFnBranchy.ntype = "function_definition" ∧
    calculate_complexity exFnBranchy = 1 + branchCountList exFnBranchy.children ∧
    calculate_complexity exFnBranchy = 3 ∧
    calculate_complexity exFnStraight = 1 :=
  ⟨by decide, complexity_counts_descendant_branches exFnBranchy (by decide),
   by decide, by decide⟩

/-- C7 (code behavior at the failing input): for `docFnNode` — whose body
block's first and only statement is the bare string literal `"doc"`, as the
first conjunct spells out — `_extract_python_function` returns a record with
`docstring = none`, because the source inspects `body_node.children[1]`, the
second child of the body, rather than the first statement. -/
theorem docstring_ignores_first_statement :
    (∃ bn, firstChildOfType docFnNode.children "block" = some bn ∧
      ∃ st, bn.children.head? = some st ∧ st.ntype = "expression_statement" ∧
        ∃ sc, st.children.head? = some sc ∧ sc.ntype = "string" ∧
          pySlice ((splitLines docContent).getD sc.srow "") sc.scol sc.ecol
            = "\"doc\"") ∧
    ∃ f, extract_python_function (splitLines docContent) docFnNode = some f ∧
      f.docstring = none := by
  refine ⟨⟨.node "block" 1 4 1 9
            [.node "expression_statement" 1 4 1 9 [.node "string" 1 4 1 9 []]],
          rfl, ?_⟩, ?_⟩
  · exact ⟨.node "expression_statement" 1 4 1 9 [.node "string" 1 4 1 9 []],
           rfl, by decide,
           ⟨.node "string" 1 4 1 9 [], rfl, by decide, by decide⟩⟩
  · exact ⟨{ name := "f", start_line := 1, end_line := 2, parameters := [],
             docstring := none, complexity := some 1, ftype := none },
           by decide, by decide⟩

/-- C2 (counterexample): a batch of two descriptors that share the relative
path `a.py` yields a mapping with a single entry, not one entry per input
descriptor. -/
theorem extractBatch_duplicate_paths_collapse :
    (batch_parse_files envA fsAll [dupA, dupB]).length = 1 ∧
    [dupA, dupB].length = 2 := by decide

/-- C3 (counterexample): with the typescript parser registered and a readable
file, `extractOne` on declared language `typescript` returns a ParseResult
whose language field is `javascript`, not the declared/detected `typescript`;
likewise `c` comes back labelled `cpp`. -/
theorem extractOne_language_mismatch :
    (parse_file envA fsAll "/r/a.ts" (some "typescript")).language = "javascript" ∧
    (parse_file envA fsAll "/r/a.ts" (some "typescript")).language ≠ "typescript" ∧
    (parse_file envA fsAll "/r/c.c" (some "c")).language = "cpp" ∧
    (parse_file envA fsAll "/r/c.c" (some "c")).language ≠ "c" := by decide

/-- C4 (counterexample): for a descriptor whose path the detector resolves to
`python` but whose descriptor-provided language is `javascript`, the batch
path extracts with `javascript` — the descriptor value, not the detector
output, takes precedence. -/
theorem batch_detection_not_preferred :
    detect_language "/r/a.py" = some "python" ∧
    ((batch_parse_files envA fsAll [fiMix]).lookup "a.py").map ParseResult.language
      = some "javascript" ∧
    ("javascript" : String) ≠ "python" := by decide

/-- C9 (counterexample): for registered rule-set languages the claim fails —
the java result has no `variables` key, the cpp result has no `imports` key,
and the go result has no `classes` key (`none` models the absent key). -/
theorem extractOne_missing_components :
    (parse_file envA fsAll "/r/A.java" (some "java")).vars = none ∧
    (parse_file envA fsAll "/r/m.cpp" (some "cpp")).imports = none ∧
    (parse_file envA fsAll "/r/m.go" (some "go")).classes = none := by decide

/-- Helper: when the resolved language is a rule-set language with a
registered parser and the file is readable, the language field of the result
is `langField` of the resolved language. -/
theorem parse_file_language_of_ruleset (env : ParserEnv) (fs : String → Option String)
    (path content : String) (language : Option String) (l : String)
    (hres : resolvedLang language path = some l)
    (hrule : l ∈ ruleSetLanguages) (hmem : l ∈ env.parsers)
    (hread : fs path = some content) :
    (parse_file env fs path language).language = langField l := by
  have hc : env.parsers.contains l = true := List.elem_iff.mpr hmem
  fin_cases hrule <;>
    simp [parse_file, parse_file_exc, parse_file_body, hres, hread, hc, hmem,
      pyFalsy, langField, parse_python, parse_javascript, parse_java, parse_cpp,
      parse_go, parse_rust]

/-- C3 (amended): for every file whose resolved language is a rule-set
language with a registered parser, the language field of the `extractOne`
result equals `langField` of that language: the resolved language itself for
python, javascript, java, cpp, go and rust, but `javascript` for a typescript
file and `cpp` for a c file (the shared rule sets hard-code their labels). -/
theorem extractOne_language_field (env : ParserEnv) (fs : String → Option String)
    (path content : String) (language : Option String) (l : String)
    (hres : resolvedLang language path = some l)
    (hrule : l ∈ ruleSetLanguages) (hmem : l ∈ env.parsers)
    (hread : fs path = some content) :
    (parse_file env fs path language).language = langField l :=
  parse_file_language_of_ruleset env fs path content language l hres hrule hmem hread

/-- Witness for C3 at a concrete python file (where the field equals the
declared language itself). -/
theorem extractOne_language_field_witness :
    (parse_file envA fsAll "/r/a.py" (some "python")).language = langField "python" :=
  extractOne_language_field envA fsAll "/r/a.py" "x = 1" (some "python") "python"
    (by decide) (by decide) (by decide) rfl

/-- Helper: a rule-set language name is never the empty string. -/
theorem ruleSet_ne_empty (l : String) (h : l ∈ ruleSetLanguages) : l ≠ "" := by
  fin_cases h <;> decide

/-- Helper: a one-element batch stores exactly the entry for its descriptor. -/
theorem batch_singleton (env : ParserEnv) (fs : String → Option String)
    (fi : FileInfo) :
    batch_parse_files env fs [fi]
      = [(fi.path, withFileInfo (parse_file env fs fi.full_path fi.language) fi)] := by
  simp [batch_parse_files, dictInsert]

/-- C4 (amended): in the batch path the descriptor-provided language takes
precedence — whenever the descriptor carries a (non-empty) rule-set language
with a registered parser, extraction uses it whatever the detector would say
about the path; the detector's answer is used only as the fallback when the
descriptor provides no language. -/
theorem batch_language_precedence (env : ParserEnv) (fs : String → Option String)
    (fi : FileInfo) (content : String) :
    (∀ dl, fi.language = some dl → dl ∈ ruleSetLanguages → dl ∈ env.parsers →
      fs fi.full_path = some content →
      batch_parse_files env fs [fi]
        = [(fi.path, withFileInfo (parse_file env fs fi.full_path fi.language) fi)] ∧
      (withFileInfo (parse_file env fs fi.full_path fi.language) fi).language
        = langField dl) ∧
    (fi.language = none → ∀ d, detect_language fi.full_path = some d →
      d ∈ ruleSetLanguages → d ∈ env.parsers → fs fi.full_path = some content →
      batch_parse_files env fs [fi]
        = [(fi.path, withFileInfo (parse_file env fs fi.full_path fi.language) fi)] ∧
      (withFileInfo (parse_file env fs fi.full_path fi.language) fi).language
        = langField d) := by
  constructor
  · intro dl hdl hrule hmem hread
    refine ⟨batch_singleton env fs fi, ?_⟩
    have hres : resolvedLang fi.language fi.full_path = some dl := by
      rw [hdl]
      simp [resolvedLang, pyFalsy, ruleSet_ne_empty dl hrule]
    have := parse_file_language_of_ruleset env fs fi.full_path content
      fi.language dl hres hrule hmem hread
    simpa [withFileInfo] using this
  · intro hnone d hdet hrule hmem hread
    refine ⟨batch_singleton env fs fi, ?_⟩
    have hres : resolvedLang fi.language fi.full_path = some d := by
      rw [hnone]
      simp [resolvedLang, pyFalsy, hdet]
    have := parse_file_language_of_ruleset env fs fi.full_path content
      fi.language d hres hrule hmem hread
    simpa [withFileInfo] using this

/-- Witness for C4: a descriptor for path `/r/w.c` (the detector would say c)
declaring language python is extracted as python. -/
theorem batch_language_precedence_witness :
    batch_parse_files envA fsAll [fiDesc]
      = [(fiDesc.path, withFileInfo (parse_file envA fsAll fiDesc.full_path fiDesc.language) fiDesc)] ∧
    (withFileInfo (parse_file envA fsAll fiDesc.full_path fiDesc.language) fiDesc).language
      = langField "python" :=
  (batch_language_precedence envA fsAll fiDesc "x = 1").1 "python" rfl
    (by decide) (by decide) rfl

/-- C8: `extractOne` without a declared language on a path with an
unrecognized extension returns the fallback shape: empty functions, classes
and imports, `lines_of_code` = number of non-blank lines of the content,
`total_lines` = full line count, and a non-empty diagnostic list. -/
theorem extractOne_fallback_line_counts (env : ParserEnv)
    (fs : String → Option String) (path content : String)
    (hdet : detect_language path = none) (hread : fs path = some content) :
    parse_file env fs path none = fallback_parse fs path ∧
    (parse_file env fs path none).functions = [] ∧
    (parse_file env fs path none).classes = some [] ∧
    (parse_file env fs path none).imports = some [] ∧
    (parse_file env fs path none).lines_of_code
      = some ((splitLines content).filter (fun l => pyNonBlank l)).length ∧
    (parse_file env fs path none).total_lines = some (splitLines content).length ∧
    (parse_file env fs path none).errors ≠ [] := by
  have hb : parse_file env fs path none = fallback_parse fs path := by
    simp [parse_file, parse_file_exc, parse_file_body, resolvedLang, pyFalsy, hdet]
  refine ⟨hb, ?_⟩
  rw [hb]
  simp [fallback_parse, hread]

/-- Witness for C8 at the specification's scenario: a 10-line file with 3
blank lines under the unrecognized extension `.txt` yields
`lines_of_code = 7` and `total_lines = 10`. -/
theorem extractOne_fallback_line_counts_witness :
    (parse_file envA fs10 "notes.txt" none = fallback_parse fs10 "notes.txt" ∧
     (parse_file envA fs10 "notes.txt" none).functions = [] ∧
     (parse_file envA fs10 "notes.txt" none).classes = some [] ∧
     (parse_file envA fs10 "notes.txt" none).imports = some [] ∧
     (parse_file envA fs10 "notes.txt" none).lines_of_code
       = some ((splitLines content10).filter (fun l => pyNonBlank l)).length ∧
     (parse_file envA fs10 "notes.txt" none).total_lines
       = some (splitLines content10).length ∧
     (parse_file envA fs10 "notes.txt" none).errors ≠ []) ∧
    (parse_file envA fs10 "notes.txt" none).lines_of_code = some 7 ∧
    (parse_file envA fs10 "notes.txt" none).total_lines = some 10 :=
  ⟨extractOne_fallback_line_counts envA fs10 "notes.txt" content10
      (by decide) (by decide),
   by decide, by decide⟩

/-- C9 (amended): every `extractOne` result for a registered rule-set language
has the functions list and error list (by construction), but only python and
javascript/typescript results carry all four component sequences; java
results lack `variables`, cpp/c results lack `imports` and `variables` (they
carry `includes`), and go/rust results lack `classes` and `variables` (they
carry `structs`). -/
theorem extractOne_component_shape (env : ParserEnv) (fs : String → Option String)
    (path content l : String)
    (hrule : l ∈ ruleSetLanguages) (hmem : l ∈ env.parsers)
    (hread : fs path = some content) :
    componentShape l (parse_file env fs path (some l)) := by
  have hc : env.parsers.contains l = true := List.elem_iff.mpr hmem
  fin_cases hrule <;>
    simp [parse_file, parse_file_exc, parse_file_body, resolvedLang, pyFalsy,
      hread, hc, hmem, componentShape, parse_python, parse_javascript,
      parse_java, parse_cpp, parse_go, parse_rust]

/-- Witness for C9 at the java case (result without a `variables` key). -/
theorem extractOne_component_shape_witness :
    componentShape "java" (parse_file envA fsAll "/r/A.java" (some "java")) :=
  extractOne_component_shape envA fsAll "/r/A.java" "x = 1" "java"
    (by decide) (by decide) rfl

/-- Helper: a function record successfully extracted from a node takes its
1-based start/end lines from the node's span and its complexity from
`_calculate_complexity` on that node. -/
theorem extract_python_function_shape (lines : List String) (n : TSNode) (f : FunctionRecord)
    (h : extract_python_function lines n = some f) :
    f.start_line = n.srow + 1 ∧ f.end_line = n.erow + 1 ∧
    f.complexity = some (calculate_complexity n) := by
  simp only [extract_python_function, bind, Option.bind_eq_some, Option.pure_def,
    Option.some.injEq] at h
  obtain ⟨nm, -, ps, -, ds, -, hf⟩ := h
  subst hf
  exact ⟨rfl, rfl, rfl⟩

/-- Helper: a class record successfully extracted from a node takes its lines
from the node's span, and each method comes from a `function_definition` child
of a block child of the class node via `_extract_python_function`. -/
theorem extract_python_class_shape (lines : List String) (n : TSNode) (c : ClassRecord)
    (h : extract_python_class lines n = some c) :
    c.start_line = n.srow + 1 ∧ c.end_line = n.erow + 1 ∧
    ∀ m ∈ c.methods, ∃ b ∈ n.children, ∃ ch ∈ b.children,
      ch.ntype = "function_definition" ∧ extract_python_function lines ch = some m := by
  simp only [extract_python_class, bind, Option.bind_eq_some, Option.pure_def,
    Option.some.injEq] at h
  obtain ⟨nm, -, hc⟩ := h
  subst hc
  refine ⟨rfl, rfl, ?_⟩
  intro m hm
  simp only at hm
  cases hb : firstChildOfType n.children "block" with
  | none => rw [hb] at hm; simp at hm
  | some bn =>
      rw [hb] at hm
      have hbmem : bn ∈ n.children := List.mem_of_find?_eq_some hb
      obtain ⟨ch, hch, hextr⟩ := List.mem_filterMap.mp hm
      by_cases hty : ch.ntype = "function_definition"
      · rw [if_pos hty] at hextr
        exact ⟨bn, hbmem, ch, hch, hty, hextr⟩
      · rw [if_neg hty] at hextr; cases hextr

/-- Helper: unpacking the well-formedness of a node. -/
theorem wfNode_parts (total : Nat) (n : TSNode) (h : wfNode total n = true) :
    n.srow ≤ n.erow ∧ n.erow < total ∧ wfList total n.children = true := by
  cases n with
  | node t sr sc er ec cs =>
      rw [wfNode] at h
      simp only [Bool.and_eq_true, decide_eq_true_eq] at h
      exact ⟨h.1.1, h.1.2, h.2⟩

/-- Helper: well-formedness of a subtree list carries to each member. -/
theorem wfList_mem (total : Nat) :
    ∀ cs : List TSNode, wfList total cs = true → ∀ c ∈ cs, wfNode total c = true := by
  intro cs
  induction cs with
  | nil => intro _ c hc; simp at hc
  | cons d ds ih =>
      intro h c hc
      rw [wfList] at h
      simp only [Bool.and_eq_true] at h
      obtain ⟨h1, h2⟩ := h
      rcases List.mem_cons.mp hc with rfl | hc'
      · exact h1
      · exact ih h2 c hc'

mutual
/-- Helper: everything the walk collects comes from a per-node dispatch on a
well-formed node, so any per-node guarantee holds of every collected item. -/
theorem collectNodes_sound {α : Type} (total : Nat) (pick : TSNode → List α) (Q : α → Prop)
    (hpick : ∀ n : TSNode, wfNode total n = true → ∀ a ∈ pick n, Q a) :
    ∀ t : TSNode, wfNode total t = true → ∀ a ∈ collectNodes pick t, Q a
  | .node ty sr sc er ec cs => by
      intro hwf a ha
      rw [collectNodes] at ha
      rcases List.mem_append.mp ha with h | h
      · exact hpick _ hwf a h
      · exact collectNodesList_sound total pick Q hpick cs
          (wfNode_parts total _ hwf).2.2 a h
/-- Helper: `collectNodes_sound` over a list of subtrees. -/
theorem collectNodesList_sound {α : Type} (total : Nat) (pick : TSNode → List α) (Q : α → Prop)
    (hpick : ∀ n : TSNode, wfNode total n = true → ∀ a ∈ pick n, Q a) :
    ∀ cs : List TSNode, wfList total cs = true → ∀ a ∈ collectNodesList pick cs, Q a
  | [] => by intro _ a ha; rw [collectNodesList] at ha; cases ha
  | c :: cs => by
      intro hwf a ha
      rw [collectNodesList] at ha
      rw [wfList] at hwf
      simp only [Bool.and_eq_true] at hwf
      obtain ⟨h1, h2⟩ := hwf
      rcases List.mem_append.mp ha with h | h
      · exact collectNodes_sound total pick Q hpick c h1 a h
      · exact collectNodesList_sound total pick Q hpick cs h2 a h
end

/-- C6: on any well-formed syntax tree (node spans inside the file, start row
at most end row — what tree-sitter guarantees for a tree parsed from the
file), every function record, class record and method record produced by the
python extraction has `1 ≤ start_line ≤ end_line ≤` the original content's
line count (1-based lines into the original content), and every function and
method record has complexity at least 1. -/
theorem parse_python_record_invariants (tree : TSNode) (content : String)
    (hwf : wfNode (splitLines content).length tree = true) :
    (∀ f ∈ (parse_python tree content).functions,
        1 ≤ f.start_line ∧ f.start_line ≤ f.end_line ∧
        f.end_line ≤ (splitLines content).length ∧
        ∃ k, f.complexity = some k ∧ 1 ≤ k) ∧
    (∀ c ∈ (parse_python tree content).classes.getD [],
        (1 ≤ c.start_line ∧ c.start_line ≤ c.end_line ∧
         c.end_line ≤ (splitLines content).length) ∧
        ∀ m ∈ c.methods,
          1 ≤ m.start_line ∧ m.start_line ≤ m.end_line ∧
          m.end_line ≤ (splitLines content).length ∧
          ∃ k, m.complexity = some k ∧ 1 ≤ k) := by
  constructor
  · intro f hf
    have hf' : f ∈ collectNodes (pickPyFunction (splitLines content)) tree := by
      simpa [parse_python] using hf
    refine collectNodes_sound (splitLines content).length _
      (fun f => 1 ≤ f.start_line ∧ f.start_line ≤ f.end_line ∧
        f.end_line ≤ (splitLines content).length ∧
        ∃ k, f.complexity = some k ∧ 1 ≤ k) ?_ tree hwf f hf'
    intro n hn a ha
    obtain ⟨hse, het, hwl⟩ := wfNode_parts _ n hn
    by_cases hty : n.ntype = "function_definition"
    · rw [pickPyFunction, if_pos hty] at ha
      have hex : extract_python_function (splitLines content) n = some a := by
        simpa using ha
      obtain ⟨h1, h2, h3⟩ := extract_python_function_shape _ _ _ hex
      refine ⟨by rw [h1]; omega, by rw [h1, h2]; omega, by rw [h2]; omega,
        calculate_complexity n, h3, by simp [calculate_complexity]⟩
    · rw [pickPyFunction, if_neg hty] at ha; cases ha
  · intro c hc
    have hc' : c ∈ collectNodes (pickPyClass (splitLines content)) tree := by
      simpa [parse_python] using hc
    refine collectNodes_sound (splitLines content).length _
      (fun c => (1 ≤ c.start_line ∧ c.start_line ≤ c.end_line ∧
         c.end_line ≤ (splitLines content).length) ∧
        ∀ m ∈ c.methods,
          1 ≤ m.start_line ∧ m.start_line ≤ m.end_line ∧
          m.end_line ≤ (splitLines content).length ∧
          ∃ k, m.complexity = some k ∧ 1 ≤ k) ?_ tree hwf c hc'
    intro n hn a ha
    obtain ⟨hse, het, hwl⟩ := wfNode_parts _ n hn
    by_cases hty : n.ntype = "class_definition"
    · rw [pickPyClass, if_pos hty] at ha
      have hex : extract_python_class (splitLines content) n = some a := by
        simpa using ha
      obtain ⟨h1, h2, hmeth⟩ := extract_python_class_shape _ _ _ hex
      refine ⟨⟨by rw [h1]; omega, by rw [h1, h2]; omega, by rw [h2]; omega⟩, ?_⟩
      intro m hm
      obtain ⟨b, hb, ch, hch, hchty, hmex⟩ := hmeth m hm
      have hwfb := wfList_mem _ _ hwl b hb
      obtain ⟨-, -, hwlb⟩ := wfNode_parts _ b hwfb
      have hwfch := wfList_mem _ _ hwlb ch hch
      obtain ⟨hse2, het2, -⟩ := wfNode_parts _ ch hwfch
      obtain ⟨m1, m2, m3⟩ := extract_python_function_shape _ _ _ hmex
      exact ⟨by rw [m1]; omega, by rw [m1, m2]; omega, by rw [m2]; omega,
        calculate_complexity ch, m3, by simp [calculate_complexity]⟩
    · rw [pickPyClass, if_neg hty] at ha; cases ha

/-- Witness for C6 on the concrete class-with-method tree of
`pyClassContent`. -/
theorem parse_python_record_invariants_witness :
    (∀ f ∈ (parse_python pyModuleTree pyClassContent).functions,
        1 ≤ f.start_line ∧ f.start_line ≤ f.end_line ∧
        f.end_line ≤ (splitLines pyClassContent).length ∧
        ∃ k, f.complexity = some k ∧ 1 ≤ k) ∧
    (∀ c ∈ (parse_python pyModuleTree pyClassContent).classes.getD [],
        (1 ≤ c.start_line ∧ c.start_line ≤ c.end_line ∧
         c.end_line ≤ (splitLines pyClassContent).length) ∧
        ∀ m ∈ c.methods,
          1 ≤ m.start_line ∧ m.start_line ≤ m.end_line ∧
          m.end_line ≤ (splitLines pyClassContent).length ∧
          ∃ k, m.complexity = some k ∧ 1 ≤ k) :=
  parse_python_record_invariants pyModuleTree pyClassContent (by decide)

/-- Helper: one unfolding of the walk at a node. -/
theorem collectNodes_expand {α : Type} (pick : TSNode → List α) (n : TSNode) :
    collectNodes pick n = pick n ++ collectNodesList pick n.children := by
  cases n with
  | node t sr sc er ec cs => rw [collectNodes]; rfl

/-- Helper: whatever the walk collects inside one member subtree it also
collects over the whole list of subtrees. -/
theorem mem_collectNodesList_of {α : Type} (pick : TSNode → List α) (x : α) :
    ∀ (cs : List TSNode) (b : TSNode), b ∈ cs → x ∈ collectNodes pick b →
      x ∈ collectNodesList pick cs := by
  intro cs
  induction cs with
  | nil => intro b hb; simp at hb
  | cons d ds ih =>
      intro b hb hx
      rw [collectNodesList]
      rcases List.mem_cons.mp hb with rfl | hb'
      · exact List.mem_append_left _ hx
      · exact List.mem_append_right _ (ih b hb' hx)

mutual
/-- Helper: any method of any class collected from a subtree is also collected
by the function walk over the same subtree, because the pre-order traversal
visits the `function_definition` nodes inside class bodies independently. -/
theorem pyMethods_in_collect (lines : List String) :
    ∀ t : TSNode, ∀ c ∈ collectNodes (pickPyClass lines) t, ∀ m ∈ c.methods,
      m ∈ collectNodes (pickPyFunction lines) t
  | .node ty sr sc er ec cs => by
      intro c hc m hm
      rw [collectNodes] at hc ⊢
      rcases List.mem_append.mp hc with h | h
      · rw [pickPyClass] at h
        split at h
        · have hex : extract_python_class lines (.node ty sr sc er ec cs) = some c := by
            simpa using h
          obtain ⟨-, -, hmeth⟩ := extract_python_class_shape _ _ _ hex
          obtain ⟨b, hb, ch, hch, hchty, hmex⟩ := hmeth m hm
          refine List.mem_append_right _ ?_
          refine mem_collectNodesList_of _ _ cs b hb ?_
          rw [collectNodes_expand]
          refine List.mem_append_right _ ?_
          refine mem_collectNodesList_of _ _ b.children ch hch ?_
          rw [collectNodes_expand]
          refine List.mem_append_left _ ?_
          rw [pickPyFunction, if_pos hchty]
          simp [hmex]
        · cases h
      · exact List.mem_append_right _ (pyMethodsList_in_collect lines cs c h m hm)
/-- Helper: `pyMethods_in_collect` over a list of subtrees. -/
theorem pyMethodsList_in_collect (lines : List String) :
    ∀ cs : List TSNode, ∀ c ∈ collectNodesList (pickPyClass lines) cs, ∀ m ∈ c.methods,
      m ∈ collectNodesList (pickPyFunction lines) cs
  | [] => by intro c hc; rw [collectNodesList] at hc; cases hc
  | d :: ds => by
      intro c hc m hm
      rw [collectNodesList] at hc ⊢
      rcases List.mem_append.mp hc with h | h
      · exact List.mem_append_left _ (pyMethods_in_collect lines d c h m hm)
      · exact List.mem_append_right _ (pyMethodsList_in_collect lines ds c h m hm)
end

/-- C10: in every python ParseResult, every method record of every class
record also appears as a top-level entry in the file-level functions list —
a function defined directly in a class body is reported twice, since the
pre-order traversal dispatches on every `function_definition` node
independently of the class rule. -/
theorem methods_also_top_level (tree : TSNode) (content : String) :
    ∀ c ∈ (parse_python tree content).classes.getD [], ∀ m ∈ c.methods,
      m ∈ (parse_python tree content).functions := by
  intro c hc m hm
  have hc' : c ∈ collectNodes (pickPyClass (splitLines content)) tree := by
    simpa [parse_python] using hc
  have hres := pyMethods_in_collect (splitLines content) tree c hc' m hm
  simpa [parse_python] using hres

/-- Witness for C10: in the concrete tree of `pyClassContent`, the method `m`
of class `C` is also a top-level functions entry. -/
theorem methods_also_top_level_witness :
    pyMethodRec ∈ (parse_python pyModuleTree pyClassContent).functions :=
  methods_also_top_level pyModuleTree pyClassContent pyClassRec (by decide)
    pyMethodRec (by decide)

/-- Helper: as long as the pending descriptors' paths are fresh for the
accumulator and mutually distinct, the batch fold appends one entry per
descriptor. -/
theorem batch_foldl_fresh (env : ParserEnv) (fs : String → Option String) :
    ∀ (l : List FileInfo) (acc : List (String × ParseResult)),
      (∀ fi ∈ l, ∀ p ∈ acc, p.1 ≠ fi.path) → (l.map FileInfo.path).Nodup →
      List.foldl
        (fun results fi =>
          dictInsert results fi.path
            (withFileInfo (parse_file env fs fi.full_path fi.language) fi))
        acc l
        = acc ++ l.map (batchEntry env fs) := by
  intro l
  induction l with
  | nil => intro acc _ _; simp
  | cons fi rest ih =>
      intro acc hfresh hnodup
      rw [List.foldl_cons]
      have hany : acc.any (fun p => p.1 = fi.path) = false := by
        rw [List.any_eq_false]
        intro p hp
        simp [hfresh fi (List.mem_cons_self _ _) p hp]
      have hins : dictInsert acc fi.path
          (withFileInfo (parse_file env fs fi.full_path fi.language) fi)
          = acc ++ [batchEntry env fs fi] := by
        simp [dictInsert, hany, batchEntry]
      rw [hins]
      simp only [List.map_cons] at hnodup
      obtain ⟨hnotin, hnd⟩ := List.nodup_cons.mp hnodup
      rw [ih (acc ++ [batchEntry env fs fi]) ?_ hnd]
      · simp
      · intro fi' hfi' p hp
        rcases List.mem_append.mp hp with hpa | hpe
        · exact hfresh fi' (List.mem_cons_of_mem _ hfi') p hpa
        · have hpe' : p = batchEntry env fs fi := by simpa using hpe
          subst hpe'
          simp only [batchEntry]
          intro heq
          exact hnotin (heq ▸ List.mem_map_of_mem FileInfo.path hfi')

/-- Helper: looking a descriptor's path up in the per-descriptor entry list
returns that descriptor's own entry when paths are distinct. -/
theorem lookup_batchEntry (env : ParserEnv) (fs : String → Option String) :
    ∀ l : List FileInfo, (l.map FileInfo.path).Nodup → ∀ fi ∈ l,
      (l.map (batchEntry env fs)).lookup fi.path
        = some (withFileInfo (parse_file env fs fi.full_path fi.language) fi) := by
  intro l
  induction l with
  | nil => intro _ fi hfi; simp at hfi
  | cons hd rest ih =>
      intro hnodup fi hfi
      simp only [List.map_cons] at hnodup
      obtain ⟨hnotin, hnd⟩ := List.nodup_cons.mp hnodup
      rcases List.mem_cons.mp hfi with rfl | hfi'
      · simp [batchEntry, List.lookup]
      · have hne : (fi.path == hd.path) = false := by
          apply beq_eq_false_iff_ne.mpr
          intro heq
          exact hnotin (heq ▸ List.mem_map_of_mem FileInfo.path hfi')
        simp only [List.map_cons, batchEntry, List.lookup, hne]
        exact ih hnd fi hfi'

/-- C2 (amended): on a list of descriptors with pairwise-distinct relative
paths, the batch returns exactly one entry per descriptor — the mapping has
exactly N entries, and each path maps to the result of parsing its own
descriptor alone (so a failure on one file, e.g. an unreadable one, never
removes or alters the entry of any other file). -/
theorem extractBatch_entry_per_distinct_path (env : ParserEnv)
    (fs : String → Option String) (l : List FileInfo)
    (h : (l.map FileInfo.path).Nodup) :
    (batch_parse_files env fs l).length = l.length ∧
    ∀ fi ∈ l, (batch_parse_files env fs l).lookup fi.path
      = some (withFileInfo (parse_file env fs fi.full_path fi.language) fi) := by
  have hb : batch_parse_files env fs l = l.map (batchEntry env fs) := by
    have hfold := batch_foldl_fresh env fs l [] (by simp) h
    simpa [batch_parse_files] using hfold
  constructor
  · rw [hb]; simp
  · intro fi hfi
    rw [hb]
    exact lookup_batchEntry env fs l h fi hfi

/-- Witness for C2: a two-descriptor batch whose second file was deleted
mid-run still returns exactly two entries, one per descriptor. -/
theorem extractBatch_entry_per_distinct_path_witness :
    (batchL.map FileInfo.path).Nodup ∧
    ((batch_parse_files envA fsB batchL).length = batchL.length ∧
     ∀ fi ∈ batchL, (batch_parse_files envA fsB batchL).lookup fi.path
       = some (withFileInfo (parse_file envA fsB fi.full_path fi.language) fi)) :=
  ⟨by decide, extractBatch_entry_per_distinct_path envA fsB batchL (by decide)⟩
